import Mathlib

/-!
Verification of the trail-counter coordination and caching core.

This file is a shallow embedding, in Lean, of the cache, aggregation,
pagination, deletion and debounce logic of the repository's worker services
(`trail-manager.ts`, `statistics-service.ts`, the trail/registration
services), together with theorems settling the frozen claims about them.

Modelling conventions:
- `Date.now()` and `setTimeout` delays are explicit `Nat` millisecond values.
- A JavaScript `Map` is modelled as an association list in insertion order.
- ISO-8601 timestamp strings are modelled by their epoch-millisecond value;
  all date component extraction (`toISOString`, `getFullYear`, `getDay`, ...)
  is implemented over epoch milliseconds with the standard civil-calendar
  algorithms, valid for instants at or after 1970-01-01 (the only instants
  the application produces).  The runtime is Cloudflare Workers, whose local
  time zone is UTC, so local-time `Date` accessors coincide with UTC ones.
- A fallible actor fetch is an explicit outcome value: success with a body,
  a non-200 status, or a thrown error.
-/

namespace TrailCounter

/-- Association-list lookup, the model of `Map.get` / record indexing:
returns the value of the first (unique, for `Map`s) binding of `k`. -/
def alookup {β : Type _} (l : List (String × β)) (k : String) : Option β :=
  match l with
  | [] => none
  | (k', v) :: rest => if k' = k then some v else alookup rest k

/-- Model of `String.prototype.startsWith` (and of Lean `String.startsWith`),
computed on the underlying character list so that it evaluates by `decide`. -/
def strStartsWith (s p : String) : Bool :=
  p.data.isPrefixOf s.data

/-- Model of JavaScript `x || default` for an optional string: the default is
used when the value is missing or is the empty string (both falsy). -/
def orFalsyStr (s : Option String) (d : String) : String :=
  match s with
  | none => d
  | some "" => d
  | some s' => s'

/-- Model of JavaScript `x || default` for an optional number: the default is
used when the value is missing or is `0` (both falsy). -/
def orFalsyNat (n : Option Nat) (d : Nat) : Nat :=
  match n with
  | none => d
  | some 0 => d
  | some k => k

/-- Model of JavaScript `b || false` for an optional boolean. -/
def orFalsyBool (b : Option Bool) : Bool :=
  b.getD false

/-! ## TTLCache (`TrailManagerDO`, trail-manager.ts lines 59-100)

The manager's in-process cache is a `Map<string, { data, expires }>`;
`expires` is an absolute epoch-millisecond deadline set to `now + ttlMs`. -/

/-- One cache slot: the stored value and its absolute expiry time
(`CacheEntry` of trail-manager.ts, with `expires = Date.now() + ttlMs`). -/
structure CacheEntry (α : Type _) where
  data : α
  expires : Nat
deriving Repr, DecidableEq

/-- The manager's cache `Map`, as an association list in insertion order. -/
abbrev Cache (α : Type _) := List (String × CacheEntry α)

/-- Model of `Map.set`: replace the binding in place when the key is present,
otherwise append it (preserving `Map` insertion order). -/
def mapSet {α : Type _} (c : Cache α) (k : String) (e : CacheEntry α) : Cache α :=
  match c with
  | [] => [(k, e)]
  | (k', e') :: rest => if k' = k then (k, e) :: rest else (k', e') :: mapSet rest k e

/-- Model of `Map.delete`: remove the binding of `k`. -/
def mapDelete {α : Type _} (c : Cache α) (k : String) : Cache α :=
  c.filter (fun p => p.1 ≠ k)

/-- Model of `Map.get` on the cache. -/
def mapGet {α : Type _} (c : Cache α) (k : String) : Option (CacheEntry α) :=
  alookup c k

/-- `TrailManagerDO.getFromCache` (trail-manager.ts lines 59-70): absent key
gives `null`; an entry whose `expires` lies strictly in the past is deleted
and treated as absent (`Date.now() > entry.expires`); otherwise the stored
data is returned.  The returned pair is (result, cache after the call). -/
def getFromCache {α : Type _} (now : Nat) (c : Cache α) (k : String) :
    Option α × Cache α :=
  match mapGet c k with
  | none => (none, c)
  | some e => if e.expires < now then (none, mapDelete c k) else (some e.data, c)

/-- `TrailManagerDO.setInCache` (trail-manager.ts lines 72-77): store the
value with expiry `Date.now() + ttlMs`, overwriting any existing entry. -/
def setInCache {α : Type _} (now : Nat) (c : Cache α) (k : String) (v : α)
    (ttlMs : Nat) : Cache α :=
  mapSet c k { data := v, expires := now + ttlMs }

/-- `TrailManagerDO.invalidateCache` (trail-manager.ts lines 79-85): one pass
over the keys deleting every entry whose key starts with the given string. -/
def invalidateCache {α : Type _} (c : Cache α) (p : String) : Cache α :=
  c.filter (fun e => ¬ strStartsWith e.1 p)

/-- The body of `setupCacheCleanup`'s interval callback (trail-manager.ts
lines 87-100): delete every entry whose `expires` lies strictly in the past. -/
def cacheCleanup {α : Type _} (now : Nat) (c : Cache α) : Cache α :=
  c.filter (fun e => ¬ e.2.expires < now)

theorem mapGet_mapSet_self {α : Type _} (c : Cache α) (k : String) (e : CacheEntry α) :
    mapGet (mapSet c k e) k = some e := by
  induction c with
  | nil => simp [mapGet, mapSet, alookup]
  | cons hd tl ih =>
    by_cases h : hd.1 = k
    · simp [mapGet, mapSet, alookup, h]
    · simpa [mapGet, mapSet, alookup, h] using ih

theorem mapGet_mapDelete_self {α : Type _} (c : Cache α) (k : String) :
    mapGet (mapDelete c k) k = none := by
  induction c with
  | nil => simp [mapGet, mapDelete, alookup]
  | cons hd tl ih =>
    by_cases h : hd.1 = k
    · simpa [mapDelete, List.filter, h] using ih
    · simpa [mapGet, mapDelete, List.filter, h, alookup] using ih

theorem mapGet_invalidate_of_startsWith {α : Type _} (c : Cache α) (p k : String)
    (h : strStartsWith k p = true) : mapGet (invalidateCache c p) k = none := by
  induction c with
  | nil => simp [mapGet, invalidateCache, alookup]
  | cons hd tl ih =>
    by_cases hs : strStartsWith hd.1 p
    · simpa [invalidateCache, List.filter, hs] using ih
    · have hne : hd.1 ≠ k := by
        intro he
        rw [he] at hs
        exact hs h
      simpa [mapGet, invalidateCache, List.filter, hs, alookup, hne] using ih

theorem mapGet_invalidate_of_not_startsWith {α : Type _} (c : Cache α) (p k : String)
    (h : ¬ strStartsWith k p = true) : mapGet (invalidateCache c p) k = mapGet c k := by
  induction c with
  | nil => simp [mapGet, invalidateCache, alookup]
  | cons hd tl ih =>
    by_cases he : hd.1 = k
    · have hs : ¬ strStartsWith hd.1 p = true := by
        rw [he]
        exact h
      simp [mapGet, invalidateCache, List.filter, hs, alookup, he, h]
    · by_cases hs : strStartsWith hd.1 p
      · simpa [mapGet, invalidateCache, List.filter, hs, alookup, he] using ih
      · simpa [mapGet, invalidateCache, List.filter, hs, alookup, he] using ih

/-- C2 (amended): after `set(key, value, ttl)` at time `t0`, an immediate
`get(key)` returns the stored value; at any time strictly later than
`t0 + ttl` (i.e. once `expiresAt` has passed — not already at exactly
`ttl` elapsed), `get(key)` returns absent and, as a side effect of that
`get`, the expired entry is removed from the cache's table. -/
theorem cache_set_get_ttl {α : Type _} (c : Cache α) (k : String) (v : α)
    (ttlMs t0 now : Nat) (httl : 0 < ttlMs) (hnow : t0 + ttlMs < now) :
    (getFromCache t0 (setInCache t0 c k v ttlMs) k).1 = some v ∧
    (getFromCache now (setInCache t0 c k v ttlMs) k).1 = none ∧
    mapGet (getFromCache now (setInCache t0 c k v ttlMs) k).2 k = none := by
  have hget := mapGet_mapSet_self c k ({ data := v, expires := t0 + ttlMs } : CacheEntry α)
  have hfresh : ¬ (t0 + ttlMs < t0) := by omega
  refine ⟨?_, ?_, ?_⟩
  · simp [getFromCache, setInCache, hget, hfresh]
  · simp [getFromCache, setInCache, hget, hnow]
  · simp only [getFromCache, setInCache, hget, hnow, if_pos]
    exact mapGet_mapDelete_self _ k

/-- C2 witness: concrete instance of `cache_set_get_ttl` with
`ttl = 5 ms`, set at `t0 = 0`, expired read at `now = 6`. -/
theorem cache_set_get_ttl_witness :
    (0 : Nat) < 5 ∧ (0 : Nat) + 5 < 6 ∧
    ((getFromCache 0 (setInCache 0 ([] : Cache Nat) "k" 42 5) "k").1 = some 42 ∧
     (getFromCache 6 (setInCache 0 ([] : Cache Nat) "k" 42 5) "k").1 = none ∧
     mapGet (getFromCache 6 (setInCache 0 ([] : Cache Nat) "k" 42 5) "k").2 "k" = none) :=
  ⟨by decide, by decide, cache_set_get_ttl [] "k" 42 5 0 6 (by decide) (by decide)⟩

/-- C2 counterexample: the claim says `get` returns absent at every time at
which `ttl` or more has elapsed since the set.  With `set("k", 42, ttl = 5)`
at time 0 and `get` at time 5, exactly `ttl` has elapsed (`5 - 0 ≥ 5`), yet
the code's strict comparison `Date.now() > entry.expires` still returns the
value, so the claim as stated is false at this input. -/
theorem cache_ttl_boundary_counterexample :
    5 - 0 ≥ 5 ∧ (getFromCache 5 (setInCache 0 ([] : Cache Nat) "k" 42 5) "k").1 = some 42 := by
  constructor
  · decide
  · rfl

/-- C3: after `invalidate(p)`, `get(k)` returns absent for every key `k`
starting with `p` (at any read time), and every entry whose key does not
start with `p` is unchanged — same stored value and same expiry. -/
theorem invalidate_prefix_correct {α : Type _} (c : Cache α) (p : String) :
    (∀ k, strStartsWith k p = true →
      ∀ now, (getFromCache now (invalidateCache c p) k).1 = none) ∧
    (∀ k, ¬ strStartsWith k p = true →
      mapGet (invalidateCache c p) k = mapGet c k) := by
  constructor
  · intro k hk now
    simp [getFromCache, mapGet_invalidate_of_startsWith c p k hk]
  · intro k hk
    exact mapGet_invalidate_of_not_startsWith c p k hk

/-- C3 witness: concrete instance of `invalidate_prefix_correct` on a
two-entry cache, prefix `registrations:`: the matching key becomes absent,
the non-matching key keeps its exact entry. -/
theorem invalidate_prefix_correct_witness :
    (strStartsWith "registrations:1:10" "registrations:" = true ∧
      (getFromCache 0
        (invalidateCache [("registrations:1:10", ⟨1, 100⟩), ("all-trails", ⟨2, 100⟩)]
          "registrations:") "registrations:1:10").1 = (none : Option Nat)) ∧
    (¬ strStartsWith "all-trails" "registrations:" = true ∧
      mapGet (invalidateCache [("registrations:1:10", ⟨1, 100⟩), ("all-trails", ⟨2, 100⟩)]
          "registrations:") "all-trails" =
        mapGet [("registrations:1:10", ⟨(1 : Nat), 100⟩), ("all-trails", ⟨2, 100⟩)] "all-trails") :=
  ⟨⟨by decide,
    (invalidate_prefix_correct _ "registrations:").1 "registrations:1:10" (by decide) 0⟩,
   ⟨by decide,
    (invalidate_prefix_correct _ "registrations:").2 "all-trails" (by decide)⟩⟩

/-! ## Calendar arithmetic (model of the JavaScript `Date` accessors)

Epoch milliseconds to civil calendar fields, by the standard era-based
algorithms, valid for every instant at or after 1970-01-01T00:00Z. -/

/-- Milliseconds per day. -/
def msPerDay : Nat := 86400000

/-- Ceiling division on naturals; `ceilDiv a b` is `Math.ceil(a / b)` for the
exact rational `a / b` (`b > 0`). -/
def ceilDiv (a b : Nat) : Nat :=
  (a + b - 1) / b

/-- Civil date (year, month 1-12, day 1-31) of a day count since 1970-01-01. -/
def civilFromDays (z : Nat) : Nat × Nat × Nat :=
  let z' := z + 719468
  let era := z' / 146097
  let doe := z' % 146097
  let yoe := (doe - doe / 1460 + doe / 36524 - doe / 146096) / 365
  let doy := doe - (365 * yoe + yoe / 4 - yoe / 100)
  let mp := (5 * doy + 2) / 153
  let d := doy - (153 * mp + 2) / 5 + 1
  let m := if mp < 10 then mp + 3 else mp - 9
  (yoe + era * 400 + (if m ≤ 2 then 1 else 0), m, d)

/-- Day count since 1970-01-01 of a civil date (year ≥ 1970, month 1-12). -/
def daysFromCivil (y m d : Nat) : Nat :=
  let y' := if m ≤ 2 then y - 1 else y
  let era := y' / 400
  let yoe := y' % 400
  let mp := if 2 < m then m - 3 else m + 9
  let doy := (153 * mp + 2) / 5 + d - 1
  let doe := yoe * 365 + yoe / 4 - yoe / 100 + doy
  era * 146097 + doe - 719468

/-- JS `Date.prototype.getDay` (0 = Sunday) of a day count since the epoch;
1970-01-01 was a Thursday. -/
def dayOfWeek (z : Nat) : Nat :=
  (z + 4) % 7

/-- JS `Date.prototype.getFullYear` (UTC runtime) of an epoch-ms instant. -/
def getFullYear (ms : Nat) : Nat :=
  (civilFromDays (ms / msPerDay)).1

/-- One-based month (JS `getMonth() + 1`) of an epoch-ms instant. -/
def getMonth1 (ms : Nat) : Nat :=
  (civilFromDays (ms / msPerDay)).2.1

/-- Two-digit zero padding, the model of `padStart(2, '0')` and of the
day/month fields of `toISOString`. -/
def pad2 (n : Nat) : String :=
  if n < 10 then "0" ++ toString n else toString n

/-- The `YYYY-MM-DD` part of `toISOString` (`.split('T')[0]`). -/
def isoDate (ms : Nat) : String :=
  let c := civilFromDays (ms / msPerDay)
  toString c.1 ++ "-" ++ pad2 c.2.1 ++ "-" ++ pad2 c.2.2

/-- `StatisticsService.getWeekNumber` (statistics-service.ts lines 815-819):
`Math.ceil((pastDaysOfYear + firstDayOfYear.getDay() + 1) / 7)` where
`pastDaysOfYear` is the exact (fractional) day difference from Jan 1 of the
instant's year; computed here as an exact ceiling over milliseconds. -/
def getWeekNumber (ms : Nat) : Nat :=
  let jan1 := daysFromCivil (getFullYear ms) 1 1
  let deltaMs := ms - jan1 * msPerDay
  ceilDiv (deltaMs + (dayOfWeek jan1 + 1) * msPerDay) (7 * msPerDay)

/-- `StatisticsService.getMonthName` (statistics-service.ts lines 824-830),
taking the one-based month. -/
def monthName (m1 : Nat) : String :=
  (["January", "February", "March", "April", "May", "June",
    "July", "August", "September", "October", "November", "December"]).getD (m1 - 1) ""

/-! ## Actor fan-out environment -/

/-- Outcome of one actor `fetch`: a 200 response with a body, a non-200
response, or a thrown error (network/invalid-id failure). -/
inductive FetchResult (α : Type _) where
  | ok (body : α)
  | notFound
  | failure
deriving Repr, DecidableEq

/-- The `TrailData` document (interface of durable-objects/trail.ts, fields
as used by the services; optional fields may be absent in a stored doc). -/
structure TrailData where
  id : Option String
  name : Option String
  description : Option String
  location : Option String
  active : Option Bool
  registrationCount : Option Nat
  horseCount : Option Nat
deriving Repr, DecidableEq

/-- The `RegistrationData` document (durable-objects/registration.ts).  The
ISO timestamp string is modelled by its epoch-millisecond value, `none` when
missing or empty (falsy). -/
structure RegistrationData where
  id : Option String
  trailId : Option String
  riderName : Option String
  email : Option String
  timestamp : Option Nat
  horseCount : Option Nat
  comments : Option String
deriving Repr, DecidableEq

/-! ## Batched fan-out (the batching idiom of the services)

Every fan-out loop splits its entries into fixed-size batches (pushing a
batch each time it reaches the batch size, plus the leftover), awaits each
batch with `Promise.all` (which preserves input order), filters out the
`null` results of items whose processing was skipped or whose error was
caught, and appends to the running result list. -/

/-- The batch-building loop: push each entry onto the current batch and emit
the batch as soon as it reaches size `n`, emitting the non-empty leftover at
the end (the `currentBatch` / `batches` loop of every fan-out site).  The
current batch is accumulated in reverse. -/
def chunkGo {α : Type _} (n : Nat) (cur : List α) : List α → List (List α)
  | [] => if cur.isEmpty then [] else [cur.reverse]
  | x :: rest =>
    if n ≤ (x :: cur).length then (x :: cur).reverse :: chunkGo n [] rest
    else chunkGo n (x :: cur) rest

/-- Split a list into consecutive batches of `n` (the last may be shorter). -/
def chunkList {α : Type _} (n : Nat) (xs : List α) : List (List α) :=
  chunkGo n [] xs

/-- Batched fan-out: process the entries batch by batch with the per-item
function `f` (whose `none` results model caught per-item failures and
skipped items), concatenating the non-null results in order. -/
def processBatches {α β : Type _} (n : Nat) (f : α → Option β) (l : List α) : List β :=
  (chunkList n l).foldl (fun acc batch => acc ++ (batch.map f).filterMap id) []

theorem chunkGo_flatten {α : Type _} (n : Nat) (l : List α) :
    ∀ cur, (chunkGo n cur l).flatten = cur.reverse ++ l := by
  induction l with
  | nil =>
    intro cur
    by_cases h : cur.isEmpty
    · simp [chunkGo, h, List.isEmpty_iff.mp h]
    · simp [chunkGo, h]
  | cons x rest ih =>
    intro cur
    by_cases h : n ≤ cur.length + 1
    · simp [chunkGo, h, ih, List.append_assoc]
    · simp [chunkGo, h, ih]

theorem chunkList_flatten {α : Type _} (n : Nat) (l : List α) :
    (chunkList n l).flatten = l := by
  simpa using chunkGo_flatten n l []

theorem foldl_append_blocks {α β : Type _} (g : List α → List β)
    (chunks : List (List α)) (init : List β) :
    chunks.foldl (fun acc b => acc ++ g b) init = init ++ (chunks.map g).flatten := by
  induction chunks generalizing init with
  | nil => simp
  | cons hd tl ih => simp [ih, List.append_assoc]

theorem filterMap_blocks {α β : Type _} (f : α → Option β) (ls : List (List α)) :
    (ls.map (List.filterMap f)).flatten = List.filterMap f ls.flatten := by
  induction ls with
  | nil => simp
  | cons hd tl ih =>
    rw [List.map_cons, List.flatten_cons, List.flatten_cons, List.filterMap_append, ih]

/-- The batched fan-out computes exactly the order-preserving `filterMap` of
the per-item function over all entries, whatever the batch size. -/
theorem processBatches_eq {α β : Type _} (n : Nat) (f : α → Option β) (l : List α) :
    processBatches n f l = l.filterMap f := by
  unfold processBatches
  rw [foldl_append_blocks]
  have hmap : (chunkList n l).map (fun batch => (batch.map f).filterMap id)
      = (chunkList n l).map (List.filterMap f) := by
    apply List.map_congr_left
    intro b _
    simp [List.filterMap_map]
  rw [hmap, filterMap_blocks, chunkList_flatten]
  simp

/-! ## Aggregator (`StatisticsService`, statistics-service.ts lines 447-830) -/

/-- The in-memory trail info built by `StatisticsService.getAllTrails`
(statistics-service.ts lines 7-11 and 498-543). -/
structure TrailInfo where
  id : String
  name : String
  active : Bool
deriving Repr, DecidableEq

/-- One registration after the Aggregator's per-item processing
(`ProcessedRegistration`, statistics-service.ts lines 13-24); `timestamp`
is the original ISO timestamp, in epoch-millisecond model. -/
structure ProcessedRegistration where
  id : String
  trailId : String
  trailName : String
  horseCount : Nat
  timestamp : Nat
  date : String
  weekKey : String
  weekLabel : String
  monthKey : String
  monthLabel : String
deriving Repr, DecidableEq

/-- `StatisticsService.getAllTrails` (statistics-service.ts lines 498-543):
fan out over the `trail:` index entries in batches of 10; a 200 response
adds `trailId -> { id, name || 'Unknown', active || false }` to the map;
non-200 responses and caught per-item errors add nothing.  The map is only
read back by key, so it is modelled as the association list of successful
entries (entry keys are full storage keys, `'trail:' + trailId`). -/
def statsGetAllTrails (entries : List (String × FetchResult TrailData)) :
    List (String × TrailInfo) :=
  processBatches 10
    (fun e =>
      match e.2 with
      | .ok data =>
        some (e.1.drop 6,
          { id := e.1.drop 6, name := orFalsyStr data.name "Unknown",
            active := orFalsyBool data.active })
      | .notFound => none
      | .failure => none)
    entries

/-- The per-item body of `StatisticsService.getAllRegistrations`
(statistics-service.ts lines 571-619): the whole body runs in a `try` whose
`catch` logs and yields `null`, so a thrown actor call (`.failure`) and a
non-200 response both contribute nothing; a 200 body without a timestamp is
skipped; otherwise the registration is processed into its date, week and
month keys and labels (entry keys are full `'registration:' + id` storage
keys; `key.substring(13)` strips the prefix). -/
def processItemReg (trailMap : List (String × TrailInfo))
    (entry : String × FetchResult RegistrationData) : Option ProcessedRegistration :=
  match entry.2 with
  | .failure => none
  | .notFound => none
  | .ok regData =>
    match regData.timestamp with
    | none => none
    | some ms =>
      let y := getFullYear ms
      let wk := getWeekNumber ms
      let mo := getMonth1 ms
      let tid := orFalsyStr regData.trailId "unknown"
      some
        { id := entry.1.drop 13
          trailId := tid
          trailName :=
            match alookup trailMap tid with
            | some info => info.name
            | none => "Unknown"
          horseCount := orFalsyNat regData.horseCount 1
          timestamp := ms
          date := isoDate ms
          weekKey := toString y ++ "-W" ++ toString wk
          weekLabel := toString y ++ " Week " ++ toString wk
          monthKey := toString y ++ "-" ++ pad2 mo
          monthLabel := monthName mo ++ " " ++ toString y }

/-- `StatisticsService.getAllRegistrations` (statistics-service.ts lines
548-627): batched fan-out (batch size 50) of the per-item processing over
the `registration:` index entries, keeping non-null results in order. -/
def getAllRegistrations (trailMap : List (String × TrailInfo))
    (regEntries : List (String × FetchResult RegistrationData)) :
    List ProcessedRegistration :=
  processBatches 50 (processItemReg trailMap) regEntries

/-- Insert one element into a grouping `Map` in insertion order: push onto
the existing group for `key`, or append a fresh singleton group. -/
def groupInsert {π : Type _} (key : String) (r : π) :
    List (String × List π) → List (String × List π)
  | [] => [(key, [r])]
  | (k, rs) :: rest =>
    if k = key then (k, rs ++ [r]) :: rest else (k, rs) :: groupInsert key r rest

/-- The `Map`-based grouping idiom of `processRegistrations`: one pass over
the registrations; groups appear in first-occurrence order, each group's
entries in encounter order. -/
def groupByKey {π : Type _} (keyOf : π → String) (regs : List π) :
    List (String × List π) :=
  regs.foldl (fun gs r => groupInsert (keyOf r) r gs) []

/-- Per-trail slice of one time bucket (`byTrail` record values of an
`AnalyticsTimeEntry`, lib/api.ts shape used in statistics-service.ts). -/
structure TrailBreakdown where
  horseCount : Nat
  registrationCount : Nat
deriving Repr, DecidableEq

/-- One time bucket of the analytics output (`AnalyticsTimeEntry`). -/
structure AnalyticsTimeEntry where
  timeKey : String
  label : String
  totalHorses : Nat
  totalRegistrations : Nat
  byTrail : List (String × TrailBreakdown)
deriving Repr, DecidableEq

/-- Per-trail summary of the `byTrail` grouping (statistics-service.ts lines
790-807); the average is the exact rational of the JS float division. -/
structure TrailSummary where
  totalHorses : Nat
  totalRegistrations : Nat
  averageHorsesPerRegistration : Rat
deriving Repr, DecidableEq

/-- Sum of `horseCount` over a group
(`entries.reduce((sum, reg) => sum + reg.horseCount, 0)`). -/
def sumHorses (entries : List ProcessedRegistration) : Nat :=
  entries.foldl (fun s r => s + r.horseCount) 0

/-- Lexicographic comparison of strings by code point, the behaviour of
`localeCompare` (default collation) on the service's ASCII bucket keys:
`charListLe a b` is `a.localeCompare(b) <= 0`. -/
def charListLe : List Char → List Char → Bool
  | [], _ => true
  | _ :: _, [] => false
  | a :: as, b :: bs =>
    if a.toNat < b.toNat then true
    else if b.toNat < a.toNat then false
    else charListLe as bs

/-- String comparison used by the bucket sorts. -/
def strLe (a b : String) : Bool :=
  charListLe a.data b.data

/-- Stable insert: place `x` before the first element it is `le`-related to.
Together with `stableSort` this is a stable sort; since ECMAScript sorts are
required to be stable and a stable sort's output is determined uniquely by
the (total, transitive) comparator, this models `Array.prototype.sort`. -/
def insertSorted {α : Type _} (le : α → α → Bool) (x : α) : List α → List α
  | [] => [x]
  | y :: ys => if le x y then x :: y :: ys else y :: insertSorted le x ys

/-- Stable sort by a boolean comparator (model of `Array.prototype.sort`
with comparator `(a, b) => ...` such that `le a b ↔ comparator(a,b) <= 0`). -/
def stableSort {α : Type _} (le : α → α → Bool) : List α → List α
  | [] => []
  | x :: xs => insertSorted le x (stableSort le xs)

/-- The `.sort((a, b) => a.timeKey.localeCompare(b.timeKey))` applied to each
time-bucketed list (statistics-service.ts lines 737, 762, 787): a stable
ascending sort by the bucket key STRING — the same lexicographic comparison
for day, week and month keys alike. -/
def sortByTimeKey (es : List AnalyticsTimeEntry) : List AnalyticsTimeEntry :=
  stableSort (fun a b => strLe a.timeKey b.timeKey) es

/-- Convert one grouping into its `AnalyticsTimeEntry` list: the group label
is the one captured when the group was created (its first entry's label). -/
def mkTimeEntries (keyOf labelOf : ProcessedRegistration → String)
    (regs : List ProcessedRegistration) : List AnalyticsTimeEntry :=
  (groupByKey keyOf regs).map (fun g =>
    { timeKey := g.1
      label :=
        match g.2 with
        | [] => ""
        | r :: _ => labelOf r
      totalHorses := sumHorses g.2
      totalRegistrations := g.2.length
      byTrail := (groupByKey (fun r => r.trailName) g.2).map
        (fun t => (t.1, { horseCount := sumHorses t.2, registrationCount := t.2.length })) })

/-- The four groupings assembled by `processRegistrations` (the
`AnalyticsData` snapshot minus its `lastUpdated` timestamp). -/
structure Groupings where
  daily : List AnalyticsTimeEntry
  weekly : List AnalyticsTimeEntry
  monthly : List AnalyticsTimeEntry
  byTrail : List (String × TrailSummary)
deriving Repr, DecidableEq

/-- `StatisticsService.processRegistrations` (statistics-service.ts lines
632-810): group the processed registrations by day, week, month (each with a
per-trail breakdown) and by trail, and sort each time-bucketed list
ascending by its key string. -/
def processRegistrations (regs : List ProcessedRegistration) : Groupings :=
  { daily := sortByTimeKey (mkTimeEntries (fun r => r.date) (fun r => r.date) regs)
    weekly := sortByTimeKey (mkTimeEntries (fun r => r.weekKey) (fun r => r.weekLabel) regs)
    monthly := sortByTimeKey (mkTimeEntries (fun r => r.monthKey) (fun r => r.monthLabel) regs)
    byTrail := (groupByKey (fun r => r.trailName) regs).map (fun g =>
      (g.1,
        { totalHorses := sumHorses g.2
          totalRegistrations := g.2.length
          averageHorsesPerRegistration :=
            if 0 < g.2.length then (sumHorses g.2 : Rat) / (g.2.length : Rat) else 0 })) }

/-- Registration document used as concrete test data: 2024-03-04T12:00Z
(calendar week 10 of 2024), two horses. -/
def regDocWeek10 : RegistrationData :=
  { id := some "a", trailId := some "T", riderName := some "A", email := none,
    timestamp := some 1709553600000, horseCount := some 2, comments := none }

/-- Registration document used as concrete test data: 2024-02-26T12:00Z
(calendar week 9 of 2024), three horses. -/
def regDocWeek9 : RegistrationData :=
  { id := some "b", trailId := some "T", riderName := some "B", email := none,
    timestamp := some 1708948800000, horseCount := some 3, comments := none }

/-- C1 (code evaluated at the claim's failing input): two registrations at
2024-03-04T12:00Z and 2024-02-26T12:00Z fall in calendar weeks 10 and 9 of
2024 and get week keys `2024-W10` and `2024-W9`, yet the weekly list built
by `processRegistrations` places `2024-W10` BEFORE `2024-W9`: the weekly
sort compares the key strings lexicographically (`'1' < '9'`), not the
(year, week-number) pairs numerically as the claim states. -/
theorem weekly_sort_lexicographic_w9_w10 :
    ((getAllRegistrations []
        [("registration:a", FetchResult.ok regDocWeek10),
         ("registration:b", FetchResult.ok regDocWeek9)]).map
      (fun r => r.weekKey) = ["2024-W10", "2024-W9"]) ∧
    ((processRegistrations (getAllRegistrations []
        [("registration:a", FetchResult.ok regDocWeek10),
         ("registration:b", FetchResult.ok regDocWeek9)])).weekly.map
      (fun e => e.timeKey) = ["2024-W10", "2024-W9"]) := by
  constructor
  · rfl
  · rfl

theorem length_filterMap_of_isSome {α β : Type _} (f : α → Option β) (l : List α)
    (h : ∀ e ∈ l, (f e).isSome) : (l.filterMap f).length = l.length := by
  induction l with
  | nil => simp
  | cons x xs ih =>
    have hx := h x (by simp)
    obtain ⟨b, hb⟩ := Option.isSome_iff_exists.mp hx
    simp [List.filterMap_cons, hb, ih (fun e he => h e (by simp [he]))]

/-- C5: in a 50-item batch of the Aggregator's registration fan-out, a single
item whose actor call throws is caught and excluded: the result is exactly
the processed other 49 items in order (the failure contributes nothing and
is not propagated — `getAllRegistrations` is a total function of the fetch
outcomes), and when the other 49 items all process successfully the result
has exactly 49 elements. -/
theorem batch_fanout_failure_isolated (trailMap : List (String × TrailInfo))
    (pre post : List (String × FetchResult RegistrationData)) (bk : String)
    (hlen : (pre ++ (bk, FetchResult.failure) :: post).length = 50)
    (hok : ∀ e ∈ pre ++ post, (processItemReg trailMap e).isSome) :
    getAllRegistrations trailMap (pre ++ (bk, FetchResult.failure) :: post)
      = pre.filterMap (processItemReg trailMap) ++ post.filterMap (processItemReg trailMap) ∧
    (getAllRegistrations trailMap (pre ++ (bk, FetchResult.failure) :: post)).length = 49 := by
  have hbad : processItemReg trailMap (bk, FetchResult.failure) = none := rfl
  have heq : getAllRegistrations trailMap (pre ++ (bk, FetchResult.failure) :: post)
      = pre.filterMap (processItemReg trailMap) ++ post.filterMap (processItemReg trailMap) := by
    unfold getAllRegistrations
    rw [processBatches_eq, List.filterMap_append, List.filterMap_cons, hbad]
  refine ⟨heq, ?_⟩
  rw [heq, List.length_append,
    length_filterMap_of_isSome _ _ (fun e he => hok e (by simp [he])),
    length_filterMap_of_isSome _ _ (fun e he => hok e (by simp [he]))]
  have := hlen
  simp only [List.length_append, List.length_cons] at this
  omega

/-- C5 witness: concrete 50-item batch — 49 good registrations and one
throwing actor call — handed to `batch_fanout_failure_isolated`; the
aggregation returns exactly 49 processed items. -/
theorem batch_fanout_failure_isolated_witness :
    ((List.replicate 49 ("registration:r", FetchResult.ok regDocWeek9) ++
        [("registration:bad", (FetchResult.failure : FetchResult RegistrationData))]).length = 50) ∧
    (getAllRegistrations []
        (List.replicate 49 ("registration:r", FetchResult.ok regDocWeek9) ++
         [("registration:bad", FetchResult.failure)])).length = 49 :=
  ⟨by simp,
    (batch_fanout_failure_isolated []
      (List.replicate 49 ("registration:r", FetchResult.ok regDocWeek9)) []
      "registration:bad" (by simp)
      (by
        intro e he
        simp only [List.append_nil, List.mem_replicate] at he
        rw [he.2]
        rfl)).2⟩

/-- Environment of one aggregation run: the outcome of every actor fetch the
run would perform (trail index entries and registration index entries with
their responses).  "No intervening mutations" means two runs see the same
environment. -/
structure AggregationEnv where
  trailEntries : List (String × FetchResult TrailData)
  regEntries : List (String × FetchResult RegistrationData)

/-- The durable side of `aggregateAnalytics`: the `analytics:data` snapshot,
holding the four groupings plus the `lastUpdated` generation timestamp. -/
structure AnalyticsStorage where
  analyticsData : Option (Groupings × Nat)
deriving Repr, DecidableEq

/-- Steps 1-3 of `StatisticsService.aggregateAnalytics` (statistics-service.ts
lines 447-479): build the trail map, fan out over registrations, and group. -/
def aggregate (env : AggregationEnv) : Groupings :=
  processRegistrations (getAllRegistrations (statsGetAllTrails env.trailEntries) env.regEntries)

/-- Steps 4-5 of `aggregateAnalytics`: assemble the snapshot with the current
time as `lastUpdated` and overwrite `analytics:data` wholesale. -/
def aggregateAnalytics (now : Nat) (env : AggregationEnv) (s : AnalyticsStorage) :
    AnalyticsStorage :=
  { s with analyticsData := some (aggregate env, now) }

/-- C6: running the Aggregator twice in succession over the same unchanged
trail and registration data stores identical grouped output both times —
the same daily, weekly, monthly and by-trail groupings with the same totals
and sort order (the `lastUpdated` generation timestamp, the snapshot's
second component, aside). -/
theorem aggregation_deterministic (env : AggregationEnv) (s : AnalyticsStorage)
    (now1 now2 : Nat) :
    (aggregateAnalytics now2 env (aggregateAnalytics now1 env s)).analyticsData.map Prod.fst
      = (aggregateAnalytics now1 env s).analyticsData.map Prod.fst ∧
    (aggregateAnalytics now1 env s).analyticsData.map Prod.fst = some (aggregate env) :=
  ⟨rfl, rfl⟩

/-! ## Paginated registration view (`StatisticsService.getRegistrationData`,
statistics-service.ts lines 75-282) -/

/-- Strict code-point comparison of strings, the model of JS `<` / `>` on the
`YYYY-MM-DD` date strings of the date filters. -/
def charListLt : List Char → List Char → Bool
  | [], [] => false
  | [], _ :: _ => true
  | _ :: _, [] => false
  | a :: as, b :: bs =>
    if a.toNat < b.toNat then true
    else if b.toNat < a.toNat then false
    else charListLt as bs

/-- String strict-order comparison used by the date-range filters. -/
def strLt (a b : String) : Bool :=
  charListLt a.data b.data

/-- One row of the paginated registration table (`RegistrationTableItem`,
statistics-service.ts lines 834-842).  `timestamp` is `regData.timestamp`
in epoch-ms model; a missing timestamp is stored as `''` by the code and
modelled as `0`, which sorts the same way (before every ISO timestamp). -/
structure RegistrationTableItem where
  id : String
  date : String
  trail : String
  trailId : String
  riderName : String
  horseCount : Nat
  timestamp : Nat
deriving Repr, DecidableEq

/-- The `page` clamp of `getRegistrationData` (line 84):
`if (page < 1) page = 1`. -/
def clampPage (page : Int) : Nat :=
  if page < 1 then 1 else page.toNat

/-- The `limit` clamps of `getRegistrationData` (lines 85-86):
`if (limit < 1) limit = 10; if (limit > 100) limit = 100`. -/
def clampLimit (limit : Int) : Nat :=
  if limit < 1 then 10 else if 100 < limit then 100 else limit.toNat

/-- The per-item body of `getRegistrationData`'s registration fan-out
(statistics-service.ts lines 172-237): the whole body runs in a `try` whose
`catch` yields `null`; non-200 responses yield `null`; the date filters drop
rows outside `[startDate, endDate]`; the trail filter drops rows whose
resolved trail name differs.  The `timezone` branch (Intl date formatting)
is not modelled: the runtime's zone is UTC and the settled claims pass no
timezone, so `regDate` is the UTC ISO date of the timestamp. -/
def buildTableItem (trailsMap : List (String × String)) (tf sd ed : Option String)
    (entry : String × FetchResult RegistrationData) : Option RegistrationTableItem :=
  match entry.2 with
  | .failure => none
  | .notFound => none
  | .ok regData =>
    let regDate :=
      match regData.timestamp with
      | some ms => isoDate ms
      | none => "Unknown"
    if (match sd with | some s => strLt regDate s | none => false) then none
    else if (match ed with | some e => strLt e regDate | none => false) then none
    else
      let trailName :=
        match regData.trailId with
        | none => "Unknown"
        | some "" => "Unknown"
        | some tid => orFalsyStr (alookup trailsMap tid) "Unknown"
      if (match tf with | some f => decide (trailName ≠ f) | none => false) then none
      else
        some
          { id := entry.1.drop 13
            date := regDate
            trail := trailName
            trailId := orFalsyStr regData.trailId "unknown"
            riderName := orFalsyStr regData.riderName "Unknown"
            horseCount := orFalsyNat regData.horseCount 1
            timestamp := regData.timestamp.getD 0 }

/-- The response of the paginated view: the page slice plus the pagination
metadata object (statistics-service.ts lines 256-273). -/
structure RegistrationPage where
  data : List RegistrationTableItem
  page : Nat
  limit : Nat
  totalItems : Nat
  totalPages : Nat
  hasNextPage : Bool
  hasPrevPage : Bool
deriving Repr, DecidableEq

/-- `StatisticsService.getRegistrationData` (statistics-service.ts lines
75-282), cache-miss path: clamp the parameters, fan out over the
registration index in batches of 50, sort the rows newest-first by
timestamp (stable), and slice out the requested page with
`totalPages = Math.ceil(totalItems / limit)`,
`startIndex = (page - 1) * limit`,
`endIndex = min(startIndex + limit, totalItems)`,
`hasNextPage = page < totalPages`, `hasPrevPage = page > 1`. -/
def getRegistrationData (trailsMap : List (String × String)) (tf sd ed : Option String)
    (page0 limit0 : Int)
    (regEntries : List (String × FetchResult RegistrationData)) : RegistrationPage :=
  let page := clampPage page0
  let limit := clampLimit limit0
  let registrationList := processBatches 50 (buildTableItem trailsMap tf sd ed) regEntries
  let sorted := stableSort (fun a b => decide (b.timestamp ≤ a.timestamp)) registrationList
  let totalItems := sorted.length
  let totalPages := ceilDiv totalItems limit
  let startIndex := (page - 1) * limit
  let endIndex := min (startIndex + limit) totalItems
  { data := (sorted.drop startIndex).take (endIndex - startIndex)
    page := page
    limit := limit
    totalItems := totalItems
    totalPages := totalPages
    hasNextPage := decide (page < totalPages)
    hasPrevPage := decide (1 < page) }

theorem length_insertSorted {α : Type _} (le : α → α → Bool) (x : α) (l : List α) :
    (insertSorted le x l).length = l.length + 1 := by
  induction l with
  | nil => rfl
  | cons y ys ih =>
    by_cases h : le x y
    · simp [insertSorted, h]
    · simp [insertSorted, h, ih]

theorem length_stableSort {α : Type _} (le : α → α → Bool) (l : List α) :
    (stableSort le l).length = l.length := by
  induction l with
  | nil => rfl
  | cons x xs ih => simp [stableSort, length_insertSorted, ih]

/-- C7: with page 1 and limit 10 over 25 registrations, none excluded by
fetch failure or filters (no filters passed), the paginated view reports
totalItems 25, totalPages 3, hasNextPage true, hasPrevPage false, and its
data array holds exactly 10 items. -/
theorem pagination_page1_of_25 (trailsMap : List (String × String))
    (regEntries : List (String × FetchResult RegistrationData))
    (hn : regEntries.length = 25)
    (hok : ∀ e ∈ regEntries, (buildTableItem trailsMap none none none e).isSome) :
    (getRegistrationData trailsMap none none none 1 10 regEntries).totalItems = 25 ∧
    (getRegistrationData trailsMap none none none 1 10 regEntries).totalPages = 3 ∧
    (getRegistrationData trailsMap none none none 1 10 regEntries).hasNextPage = true ∧
    (getRegistrationData trailsMap none none none 1 10 regEntries).hasPrevPage = false ∧
    (getRegistrationData trailsMap none none none 1 10 regEntries).data.length = 10 := by
  have hitems :
      (processBatches 50 (buildTableItem trailsMap none none none) regEntries).length = 25 := by
    rw [processBatches_eq, length_filterMap_of_isSome _ _ hok, hn]
  have hsorted :
      (stableSort (fun a b => decide (b.timestamp ≤ a.timestamp))
        (processBatches 50 (buildTableItem trailsMap none none none) regEntries)).length = 25 := by
    rw [length_stableSort, hitems]
  refine ⟨?_, ?_, ?_, ?_, ?_⟩
  · simpa [getRegistrationData] using hsorted
  · simp [getRegistrationData, hsorted]
    decide
  · simp [getRegistrationData, hsorted]
    decide
  · simp [getRegistrationData]
    decide
  · simp [getRegistrationData, List.length_take, List.length_drop, hsorted]
    decide

/-- C7 witness: 25 concrete registration entries fed to
`pagination_page1_of_25`. -/
theorem pagination_page1_of_25_witness :
    (getRegistrationData [] none none none 1 10
        (List.replicate 25 ("registration:r", FetchResult.ok regDocWeek9))).totalItems = 25 ∧
    (getRegistrationData [] none none none 1 10
        (List.replicate 25 ("registration:r", FetchResult.ok regDocWeek9))).totalPages = 3 ∧
    (getRegistrationData [] none none none 1 10
        (List.replicate 25 ("registration:r", FetchResult.ok regDocWeek9))).hasNextPage = true ∧
    (getRegistrationData [] none none none 1 10
        (List.replicate 25 ("registration:r", FetchResult.ok regDocWeek9))).hasPrevPage = false ∧
    (getRegistrationData [] none none none 1 10
        (List.replicate 25 ("registration:r", FetchResult.ok regDocWeek9))).data.length = 10 :=
  pagination_page1_of_25 [] (List.replicate 25 ("registration:r", FetchResult.ok regDocWeek9))
    (by simp)
    (by
      intro e he
      simp only [List.mem_replicate] at he
      rw [he.2]
      rfl)

/-- C8: the pagination parameters are clamped before use and echoed clamped
in the response metadata — a page below 1 becomes 1, a limit below 1
becomes 10, a limit above 100 becomes 100, in-range values pass through —
and the clamped page is at least 1, the clamped limit is between 1 and 100,
and the data array never holds more than 100 items. -/
theorem pagination_params_clamped (trailsMap : List (String × String))
    (tf sd ed : Option String) (page0 limit0 : Int)
    (regEntries : List (String × FetchResult RegistrationData)) :
    (page0 < 1 → (getRegistrationData trailsMap tf sd ed page0 limit0 regEntries).page = 1) ∧
    (1 ≤ page0 →
      (getRegistrationData trailsMap tf sd ed page0 limit0 regEntries).page = page0.toNat) ∧
    (limit0 < 1 →
      (getRegistrationData trailsMap tf sd ed page0 limit0 regEntries).limit = 10) ∧
    (100 < limit0 →
      (getRegistrationData trailsMap tf sd ed page0 limit0 regEntries).limit = 100) ∧
    (1 ≤ limit0 → limit0 ≤ 100 →
      (getRegistrationData trailsMap tf sd ed page0 limit0 regEntries).limit = limit0.toNat) ∧
    1 ≤ (getRegistrationData trailsMap tf sd ed page0 limit0 regEntries).page ∧
    1 ≤ (getRegistrationData trailsMap tf sd ed page0 limit0 regEntries).limit ∧
    (getRegistrationData trailsMap tf sd ed page0 limit0 regEntries).limit ≤ 100 ∧
    (getRegistrationData trailsMap tf sd ed page0 limit0 regEntries).data.length ≤ 100 := by
  have hpage : (getRegistrationData trailsMap tf sd ed page0 limit0 regEntries).page
      = clampPage page0 := rfl
  have hlimit : (getRegistrationData trailsMap tf sd ed page0 limit0 regEntries).limit
      = clampLimit limit0 := rfl
  have hlimit_ge : 1 ≤ clampLimit limit0 := by
    unfold clampLimit
    split
    · omega
    · split
      · omega
      · omega
  have hlimit_le : clampLimit limit0 ≤ 100 := by
    unfold clampLimit
    split
    · omega
    · split
      · omega
      · omega
  have hpage_ge : 1 ≤ clampPage page0 := by
    unfold clampPage
    split
    · omega
    · omega
  refine ⟨?_, ?_, ?_, ?_, ?_, ?_, ?_, ?_, ?_⟩
  · intro h
    rw [hpage]
    simp [clampPage, h]
  · intro h
    rw [hpage]
    have ha : ¬ page0 < 1 := by omega
    simp [clampPage, ha]
  · intro h
    rw [hlimit]
    simp [clampLimit, h]
  · intro h
    rw [hlimit]
    have h1 : ¬ limit0 < 1 := by omega
    simp [clampLimit, h, h1]
  · intro h1 h2
    rw [hlimit]
    have ha : ¬ limit0 < 1 := by omega
    have hb : ¬ 100 < limit0 := by omega
    simp [clampLimit, ha, hb]
  · rw [hpage]
    exact hpage_ge
  · rw [hlimit]
    exact hlimit_ge
  · rw [hlimit]
    exact hlimit_le
  · have hdata : (getRegistrationData trailsMap tf sd ed page0 limit0 regEntries).data.length
        ≤ clampLimit limit0 := by
      simp only [getRegistrationData, List.length_take, List.length_drop]
      omega
    omega

/-- C8 witness: concrete out-of-range parameters `page = 0`, `limit = 500`
over two entries handed to `pagination_params_clamped`: the echoed page is 1,
the echoed limit is 100, and the data array holds at most 100 items. -/
theorem pagination_params_clamped_witness :
    ((0 : Int) < 1 ∧
      (getRegistrationData [] none none none 0 500
        [("registration:r", FetchResult.ok regDocWeek9)]).page = 1) ∧
    ((100 : Int) < 500 ∧
      (getRegistrationData [] none none none 0 500
        [("registration:r", FetchResult.ok regDocWeek9)]).limit = 100) ∧
    (getRegistrationData [] none none none 0 500
        [("registration:r", FetchResult.ok regDocWeek9)]).data.length ≤ 100 :=
  ⟨⟨by decide,
    (pagination_params_clamped [] none none none 0 500
      [("registration:r", FetchResult.ok regDocWeek9)]).1 (by decide)⟩,
   ⟨by decide,
    (pagination_params_clamped [] none none none 0 500
      [("registration:r", FetchResult.ok regDocWeek9)]).2.2.2.1 (by decide)⟩,
   (pagination_params_clamped [] none none none 0 500
      [("registration:r", FetchResult.ok regDocWeek9)]).2.2.2.2.2.2.2.2⟩

/-! ## Registration deletion (`RegistrationService.deleteRegistration`) -/

/-- Generic association-list overwrite (`storage.put`): replace the binding
in place, or append a fresh one. -/
def aset {β : Type _} (l : List (String × β)) (k : String) (v : β) : List (String × β) :=
  match l with
  | [] => [(k, v)]
  | (k', v') :: rest => if k' = k then (k, v) :: rest else (k', v') :: aset rest k v

theorem alookup_filter_ne {β : Type _} (l : List (String × β)) (k : String) :
    alookup (l.filter (fun p => p.1 ≠ k)) k = none := by
  induction l with
  | nil => simp [alookup]
  | cons hd tl ih =>
    by_cases h : hd.1 = k
    · simpa [List.filter, h] using ih
    · simpa [List.filter, h, alookup] using ih

/-- The IndexStore storage key of a registration mapping. -/
def regKey (rid : String) : String :=
  "registration:" ++ rid

/-- The IndexStore storage key of a trail's registration list. -/
def trailRegsKey (tid : String) : String :=
  "trail_registrations:" ++ tid

/-- The IndexStore slice touched by `deleteRegistration`: the
`registration:<id> -> actor id` mappings and the per-trail
`trail_registrations:<trailId>` secondary-index lists. -/
structure IndexState where
  regIndex : List (String × String)
  trailRegs : List (String × List String)
deriving Repr, DecidableEq

/-- `RegistrationDO.fetch` with `GET` (registration.ts lines 37-47): 404 when
the actor holds no document, otherwise 200 with the document. -/
def registrationDOGet (doc : Option RegistrationData) : FetchResult RegistrationData :=
  match doc with
  | none => FetchResult.notFound
  | some d => FetchResult.ok d

/-- `RegistrationDO.fetch` with `DELETE` (registration.ts lines 82-95): the
returned status — 404 when the actor holds no document, else 200. -/
def registrationDODelete (doc : Option RegistrationData) : Nat :=
  match doc with
  | none => 404
  | some _ => 200

/-- The secondary-index removal inside `deleteRegistration` (registration
service lines 934-947): read the trail's list, filter this registration id
out, and store the filtered list back (no-op when the list is absent). -/
def removeFromTrailRegs (st : IndexState) (tid rid : String) : IndexState :=
  match alookup st.trailRegs (trailRegsKey tid) with
  | none => st
  | some ids =>
    { st with trailRegs := aset st.trailRegs (trailRegsKey tid) (ids.filter (fun i => i ≠ rid)) }

/-- `RegistrationService.deleteRegistration` (registration service lines
912-964): 404 when the IndexStore mapping is absent; otherwise `GET` the
actor (here a deterministic function of its document `doc`), on a 200 with
a truthy `trailId` remove the id from that trail's secondary index, then
UNCONDITIONALLY delete the `registration:<id>` mapping, `DELETE` the actor,
and return the actor's DELETE status to the caller.  Cache invalidation (on
200 with a trail id) is modelled separately; an actor communication
exception would propagate and is outside this deterministic model. -/
def deleteRegistration (doc : Option RegistrationData) (st : IndexState) (rid : String) :
    IndexState × Nat :=
  match alookup st.regIndex (regKey rid) with
  | none => (st, 404)
  | some _ =>
    let st1 :=
      match registrationDOGet doc with
      | FetchResult.ok d =>
        match d.trailId with
        | some tid => if tid = "" then st else removeFromTrailRegs st tid rid
        | none => st
      | _ => st
    let st2 := { st1 with regIndex := st1.regIndex.filter (fun p => p.1 ≠ regKey rid) }
    (st2, registrationDODelete doc)

/-- C9: whenever the `registration:<id>` mapping exists, `deleteRegistration`
deletes the mapping unconditionally — in particular also when the actor's
document is absent, in which case the call both removes the mapping and
returns the actor's NotFound (404) to the caller. -/
theorem delete_registration_not_atomic (doc : Option RegistrationData)
    (st : IndexState) (rid doId : String)
    (h : alookup st.regIndex (regKey rid) = some doId) :
    alookup (deleteRegistration doc st rid).1.regIndex (regKey rid) = none ∧
    (doc = none → (deleteRegistration doc st rid).2 = 404) := by
  simp only [deleteRegistration, h]
  refine ⟨alookup_filter_ne _ _, ?_⟩
  intro hdoc
  subst hdoc
  rfl

/-- C9 witness: one mapped registration whose actor document is absent —
after the call the mapping is gone and the caller got 404. -/
theorem delete_registration_not_atomic_witness :
    alookup [(regKey "r1", "do1")] (regKey "r1") = some "do1" ∧
    alookup (deleteRegistration none ⟨[(regKey "r1", "do1")], []⟩ "r1").1.regIndex
      (regKey "r1") = none ∧
    (deleteRegistration none ⟨[(regKey "r1", "do1")], []⟩ "r1").2 = 404 :=
  ⟨by decide,
   (delete_registration_not_atomic none ⟨[(regKey "r1", "do1")], []⟩ "r1" "do1" (by decide)).1,
   (delete_registration_not_atomic none ⟨[(regKey "r1", "do1")], []⟩ "r1" "do1" (by decide)).2 rfl⟩

/-! ## Trail listing (`TrailService.getAllTrails`, trail service lines 78-232) -/

/-- The enrichment `getAllTrails` applies to each 200 trail document before
the active check: attach the registration count and horse count.  The counts
come from secondary-index reads and per-registration fetches (with their own
caches); they are abstracted as a function of the trail id because they do
not affect membership in the returned list. -/
def enrichTrail (counts : String → Nat × Nat) (key : String) (data : TrailData) : TrailData :=
  { data with
      registrationCount := some (counts (key.drop 6)).1
      horseCount := some (counts (key.drop 6)).2 }

/-- Per-item body of `getAllTrails`' fan-out (trail service lines 116-219):
invalid actor ids and thrown fetches are caught and the trail skipped;
non-200 responses are skipped; a 200 document is enriched with its counts
and included IF AND ONLY IF `data.active !== false`. -/
def trailListItem (counts : String → Nat × Nat)
    (entry : String × FetchResult TrailData) : Option TrailData :=
  match entry.2 with
  | FetchResult.failure => none
  | FetchResult.notFound => none
  | FetchResult.ok data =>
    let enriched := enrichTrail counts entry.1 data
    if enriched.active ≠ some false then some enriched else none

/-- `TrailService.getAllTrails`, cache-miss path: batched fan-out (batch
size 10) over the `trail:` index entries; the resulting list is cached under
`all-trails` (60 s TTL) and returned. -/
def getAllTrailsList (counts : String → Nat × Nat)
    (entries : List (String × FetchResult TrailData)) : List TrailData :=
  processBatches 10 (trailListItem counts) entries

theorem mem_getAllTrailsList_active (counts : String → Nat × Nat)
    (entries : List (String × FetchResult TrailData)) (x : TrailData)
    (hx : x ∈ getAllTrailsList counts entries) : x.active ≠ some false := by
  rw [getAllTrailsList, processBatches_eq] at hx
  obtain ⟨e, _, he⟩ := List.mem_filterMap.mp hx
  match hfr : e.2 with
  | FetchResult.failure => rw [trailListItem, hfr] at he; cases he
  | FetchResult.notFound => rw [trailListItem, hfr] at he; cases he
  | FetchResult.ok data =>
    rw [trailListItem, hfr] at he
    dsimp only at he
    by_cases hact : (enrichTrail counts e.1 data).active ≠ some false
    · rw [if_pos hact] at he
      rw [← Option.some.inj he]
      exact hact
    · rw [if_neg hact] at he
      cases he

/-- C10: for every trail whose document fetch succeeds (200), its enriched
document appears in the list returned (and cached) by `getAllTrails` if and
only if the document's `active` field is not `false` — inactive trails are
silently omitted. -/
theorem trails_listing_filters_inactive (counts : String → Nat × Nat)
    (entries : List (String × FetchResult TrailData)) (key : String) (data : TrailData)
    (hmem : (key, FetchResult.ok data) ∈ entries) :
    enrichTrail counts key data ∈ getAllTrailsList counts entries ↔
      data.active ≠ some false := by
  constructor
  · intro hin
    have hact := mem_getAllTrailsList_active counts entries _ hin
    simpa [enrichTrail] using hact
  · intro hact
    rw [getAllTrailsList, processBatches_eq]
    refine List.mem_filterMap.mpr ⟨(key, FetchResult.ok data), hmem, ?_⟩
    have : (enrichTrail counts key data).active = data.active := rfl
    simp [trailListItem, this, hact]

/-- Trail document used as concrete test data: active. -/
def trailDocActive : TrailData :=
  { id := some "T1", name := some "North Loop", description := none, location := none,
    active := some true, registrationCount := none, horseCount := none }

/-- Trail document used as concrete test data: inactive (`active = false`). -/
def trailDocInactive : TrailData :=
  { id := some "T2", name := some "South Loop", description := none, location := none,
    active := some false, registrationCount := none, horseCount := none }

/-- C10 witness: a two-trail listing — the active trail's enriched document
is in the returned list, the inactive trail's is not. -/
theorem trails_listing_filters_inactive_witness :
    (enrichTrail (fun _t => (0, 0)) "trail:T1" trailDocActive ∈
      getAllTrailsList (fun _t => (0, 0))
        [("trail:T1", FetchResult.ok trailDocActive),
         ("trail:T2", FetchResult.ok trailDocInactive)]) ∧
    ¬ (enrichTrail (fun _t => (0, 0)) "trail:T2" trailDocInactive ∈
      getAllTrailsList (fun _t => (0, 0))
        [("trail:T1", FetchResult.ok trailDocActive),
         ("trail:T2", FetchResult.ok trailDocInactive)]) :=
  ⟨(trails_listing_filters_inactive (fun _t => (0, 0)) _ "trail:T1" trailDocActive
      (by simp)).mpr (by decide),
   fun hin =>
    (by decide : ¬ (trailDocInactive.active ≠ some false))
      ((trails_listing_filters_inactive (fun _t => (0, 0)) _ "trail:T2" trailDocInactive
        (by simp)).mp hin)⟩

/-! ## Debounced invalidation and re-aggregation (`RegistrationService`)

`createRegistration` (line 784) funnels its cache invalidation through
`debounceInvalidateCache`; `updateRegistration` (lines 897-907),
`deleteRegistration` (lines 959-961) and `flushAllRegistrations` (line 1068)
call `invalidateAllCaches` directly.  Every `invalidateAllCaches` run ends
by calling `triggerAnalyticsAggregation`, which starts the re-aggregation
once, 100 ms deferred, unconditionally (lines 989-1018). -/

/-- A successful registration mutation event, with the affected parent trail
id as the service resolves it (`none` models a falsy id). -/
inductive RegMutation where
  | create (trailId : Option String)
  | update (trailId : Option String)
  | delete (trailId : Option String)
deriving Repr, DecidableEq

/-- The debounce timer key, `trailId || 'global'` (lines 817-824). -/
def debounceKey (trailId : Option String) : String :=
  orFalsyStr trailId "global"

/-- The in-process debounce state plus the observable invalidation record:
`timers` maps a debounce key to the absolute fire time of its pending
`setTimeout`; `fired` lists, in order, the times at which
`invalidateAllCaches` ran. -/
structure DebounceState where
  timers : List (String × Nat)
  fired : List Nat
deriving Repr, DecidableEq

/-- Advance the event loop to `now`: every pending timer due at or before
`now` fires — its callback runs `invalidateAllCaches` and deletes its own
timer entry (lines 822-825). -/
def fireDueTimers (now : Nat) (s : DebounceState) : DebounceState :=
  { timers := s.timers.filter (fun p => ¬ p.2 ≤ now)
    fired := s.fired ++ (s.timers.filter (fun p => p.2 ≤ now)).map (fun p => p.2) }

/-- `RegistrationService.debounceInvalidateCache` (lines 815-826):
`clearTimeout` any pending timer for this key and schedule a new one
2000 ms from now. -/
def debounceInvalidateCache (now : Nat) (trailId : Option String) (s : DebounceState) :
    DebounceState :=
  { s with
      timers := (s.timers.filter (fun p => p.1 ≠ debounceKey trailId))
        ++ [(debounceKey trailId, now + 2000)] }

/-- One successful mutation handled at its event time: a create debounces
the invalidation; an update or delete runs `invalidateAllCaches` at once (an
update whose trail id changed runs it for both trails — both immediate,
modelled as one run here).  Timers due by the event's time fire first. -/
def stepMutation (s : DebounceState) (ev : Nat × RegMutation) : DebounceState :=
  let s' := fireDueTimers ev.1 s
  match ev.2 with
  | RegMutation.create tid => debounceInvalidateCache ev.1 tid s'
  | RegMutation.update _ => { s' with fired := s'.fired ++ [ev.1] }
  | RegMutation.delete _ => { s' with fired := s'.fired ++ [ev.1] }

/-- Run a time-ordered list of successful registration mutations starting
from an idle service, then let every remaining timer fire.  Returns the
times at which `invalidateAllCaches` ran. -/
def runMutations (evs : List (Nat × RegMutation)) : List Nat :=
  let s := evs.foldl stepMutation { timers := [], fired := [] }
  s.fired ++ s.timers.map (fun p => p.2)

/-- The times at which the re-aggregation itself (`aggregateStatistics`)
starts: one per `invalidateAllCaches` run, 100 ms deferred by
`triggerAnalyticsAggregation`'s `setTimeout` (lines 997-1018). -/
def aggregationTimes (evs : List (Nat × RegMutation)) : List Nat :=
  (runMutations evs).map (fun t => t + 100)

/-- C4 counterexample: the claim asserts that after EVERY registration
create, update or delete the re-aggregation is debounced 2 s per parent key,
so that mutations M1 at t=0 and M2 at t=1 s on the same key yield exactly
one re-aggregation, at t=3 s.  For two UPDATES of the same trail the code
does not debounce: `updateRegistration` runs `invalidateAllCaches`
immediately on success, so the invalidation runs twice (at 0 and 1000 ms),
two re-aggregations are triggered (at 100 and 1100 ms), and nothing fires
at 3000 ms. -/
theorem debounce_counterexample_updates :
    runMutations [(0, RegMutation.update (some "T")), (1000, RegMutation.update (some "T"))]
      = [0, 1000] ∧
    aggregationTimes [(0, RegMutation.update (some "T")), (1000, RegMutation.update (some "T"))]
      = [100, 1100] ∧
    ¬ (aggregationTimes
        [(0, RegMutation.update (some "T")), (1000, RegMutation.update (some "T"))]
      = [3000]) := by
  refine ⟨rfl, rfl, ?_⟩
  decide

/-- C4 (amended): only registration CREATES are debounced, 2 s per trail key
(`'global'` when no trail id applies), cancel-and-replace: two creates at
`t1 ≤ t2 < t1 + 2000` on the same key produce exactly one
`invalidateAllCaches` run, at `t2 + 2000`, hence exactly one re-aggregation,
starting at `t2 + 2100` (the invalidation timer fires at t2 + 2 s and the
aggregation call is deferred a further 100 ms).  Updates and deletes bypass
the debounce and trigger an immediate invalidation and re-aggregation each. -/
theorem debounce_collapses_creates (tid : Option String) (t1 t2 : Nat)
    (h1 : t1 ≤ t2) (h2 : t2 < t1 + 2000) :
    runMutations [(t1, RegMutation.create tid), (t2, RegMutation.create tid)]
      = [t2 + 2000] ∧
    aggregationTimes [(t1, RegMutation.create tid), (t2, RegMutation.create tid)]
      = [t2 + 2100] := by
  have hc : ¬ (t1 + 2000 ≤ t2) := by omega
  have hrun : runMutations [(t1, RegMutation.create tid), (t2, RegMutation.create tid)]
      = [t2 + 2000] := by
    simp [runMutations, stepMutation, fireDueTimers, debounceInvalidateCache, hc]
  refine ⟨hrun, ?_⟩
  rw [aggregationTimes, hrun]
  simp

/-- C4 witness: two creates of the same trail at t=0 and t=1000 ms handed to
`debounce_collapses_creates`: one invalidation at 3000 ms, one
re-aggregation start at 3100 ms. -/
theorem debounce_collapses_creates_witness :
    (0 : Nat) ≤ 1000 ∧ (1000 : Nat) < 0 + 2000 ∧
    runMutations [(0, RegMutation.create (some "T")), (1000, RegMutation.create (some "T"))]
      = [3000] ∧
    aggregationTimes [(0, RegMutation.create (some "T")), (1000, RegMutation.create (some "T"))]
      = [3100] :=
  ⟨by decide, by decide,
   (debounce_collapses_creates (some "T") 0 1000 (by decide) (by decide)).1,
   (debounce_collapses_creates (some "T") 0 1000 (by decide) (by decide)).2⟩

end TrailCounter
